import Mathlib

/-!
Verification of the packet-buffer core and the TCP/UDP header-validation
stages of a Click-style software router.

Part A embeds the user-space branch of `include/click/packet.hh`: a
`Packet` is a handle over a byte buffer delimited by the four offsets
`_head ≤ _data ≤ _tail ≤ _end`, with a use count and a `_data_packet`
back-reference that together decide `shared()`.  The size-changing
operations `push`, `nonunique_push`, `pull`, `put`, `nonunique_put`,
`take` and the copy-on-write escape hatch `uniqueify` are embedded
directly from their inline definitions.  The bodies of
`expensive_push`, `expensive_put` and `expensive_uniqueify` live in a
translation unit that is not part of the sources under study, so the
embedding records only that the expensive path was taken, which is all
the properties below depend on.

Part B embeds `elements/tcpudp/checktcpheader.cc` and
`checkudpheader.cc`: the per-packet `simple_action` validators, the
shared `drop` bookkeeping routine, and the configuration and counter
state of the elements.

Pointers are modelled as natural-number buffer offsets; multi-byte wire
fields are modelled as the natural numbers they decode to; C `unsigned`
arithmetic that can wrap is taken modulo 2^32 explicitly.
-/

/-- Model of `class Packet` (user-space branch of `packet.hh`).  The
`id` field stands for the address of the handle itself, so that
returning "the same handle" is expressible; `mem` gives the byte stored
at each buffer address, never touched by the offset-moving operations
embedded here. -/
structure Packet where
  id : Nat
  use_count : Int
  data_packet : Bool
  head : Nat
  data : Nat
  tail : Nat
  end_ : Nat
  mem : Nat → Nat

namespace Packet

/-- Embeds `headroom() { return _data - _head; }`. -/
def headroom (p : Packet) : Nat := p.data - p.head

/-- Embeds `tailroom() { return _end - _tail; }`. -/
def tailroom (p : Packet) : Nat := p.end_ - p.tail

/-- Embeds `length() { return _tail - _data; }`. -/
def length (p : Packet) : Nat := p.tail - p.data

/-- Embeds `buffer_length() { return _end - _head; }`. -/
def buffer_length (p : Packet) : Nat := p.end_ - p.head

/-- Embeds `shared() { return (_data_packet || _use_count > 1); }`. -/
def shared (p : Packet) : Bool := p.data_packet || decide (1 < p.use_count)

/-- Buffer-region well-formedness: `head ≤ data ≤ tail ≤ end`, the
documented invariant of the four offsets. -/
def WF (p : Packet) : Prop := p.head ≤ p.data ∧ p.data ≤ p.tail ∧ p.tail ≤ p.end_

instance (p : Packet) : Decidable p.WF := by
  unfold WF
  infer_instance

/-- Result of a growth operation.  `fast w q` is the in-place path: the
operation returned the handle `q` (statically a `WritablePacket` when
`w = true`, a plain `Packet` when `w = false`).  `expensive n` records
that the operation fell through to `expensive_push` / `expensive_put`,
whose body is outside the sources under study. -/
inductive PushResult where
  | fast (writable : Bool) (q : Packet)
  | expensive (nbytes : Nat)

/-- Result of `uniqueify()`: either the same handle reinterpreted as a
`WritablePacket`, or the `expensive_uniqueify()` copy path. -/
inductive UniqueifyResult where
  | fast (q : Packet)
  | expensive

/-- Embeds `Packet::push`: `if (headroom() >= nbytes && !shared())`
move `_data` back by `nbytes` and return `this` as a `WritablePacket`,
else `return expensive_push(nbytes)`. -/
def push (p : Packet) (nbytes : Nat) : PushResult :=
  if p.headroom ≥ nbytes ∧ p.shared = false then
    .fast true { p with data := p.data - nbytes }
  else
    .expensive nbytes

/-- Embeds `Packet::nonunique_push`: `if (headroom() >= nbytes)` move
`_data` back by `nbytes` and return `this` as a plain `Packet`, else
`return expensive_push(nbytes)`; `shared()` is never consulted. -/
def nonunique_push (p : Packet) (nbytes : Nat) : PushResult :=
  if p.headroom ≥ nbytes then
    .fast false { p with data := p.data - nbytes }
  else
    .expensive nbytes

/-- Embeds `Packet::pull`: when `nbytes > length()` a diagnostic is
chattered and `nbytes` is clamped to `length()`, then `_data += nbytes`.
The boolean component records whether the diagnostic was emitted. -/
def pull (p : Packet) (nbytes : Nat) : Packet × Bool :=
  if p.length < nbytes then
    ({ p with data := p.data + p.length }, true)
  else
    ({ p with data := p.data + nbytes }, false)

/-- Embeds `Packet::put`: `if (tailroom() >= nbytes && !shared())` move
`_tail` forward by `nbytes` and return `this` as a `WritablePacket`,
else `return expensive_put(nbytes)`. -/
def put (p : Packet) (nbytes : Nat) : PushResult :=
  if p.tailroom ≥ nbytes ∧ p.shared = false then
    .fast true { p with tail := p.tail + nbytes }
  else
    .expensive nbytes

/-- Embeds `Packet::nonunique_put`: `if (tailroom() >= nbytes)` move
`_tail` forward by `nbytes` and return `this` as a plain `Packet`, else
`return expensive_put(nbytes)`; `shared()` is never consulted. -/
def nonunique_put (p : Packet) (nbytes : Nat) : PushResult :=
  if p.tailroom ≥ nbytes then
    .fast false { p with tail := p.tail + nbytes }
  else
    .expensive nbytes

/-- Embeds `Packet::take`: when `nbytes > length()` a diagnostic is
chattered and `nbytes` is clamped to `length()`, then `_tail -= nbytes`.
The boolean component records whether the diagnostic was emitted. -/
def take (p : Packet) (nbytes : Nat) : Packet × Bool :=
  if p.length < nbytes then
    ({ p with tail := p.tail - p.length }, true)
  else
    ({ p with tail := p.tail - nbytes }, false)

/-- Embeds `Packet::uniqueify`: `if (!shared()) return
static_cast<WritablePacket *>(this); else return
expensive_uniqueify();`. -/
def uniqueify (p : Packet) : UniqueifyResult :=
  if p.shared = false then .fast p else .expensive

end Packet

/-- A concrete well-formed, unshared packet used to instantiate the
universally quantified theorems below: headroom 8, length 12,
tailroom 12, use count 1, no shadow packet. -/
def samplePacket : Packet :=
  { id := 7, use_count := 1, data_packet := false,
    head := 0, data := 8, tail := 20, end_ := 32, mem := fun _ => 0 }

/-- A shared clone-style handle over the same region: its use count is
2, so `shared()` reports true. -/
def sharedPacket : Packet :=
  { id := 9, use_count := 2, data_packet := false,
    head := 0, data := 8, tail := 20, end_ := 32, mem := fun _ => 0 }

/-- Wire-order 16-bit load: header fields below store the 16-bit wire
value as a number, so `ntohs` reduces to truncation to 16 bits. -/
def ntohs (x : Nat) : Nat := x % 65536

/-- C `unsigned` subtraction: `a - b` modulo 2^32, for `b < 2^32`. -/
def u32sub (a b : Nat) : Nat := (a + 4294967296 - b) % 4294967296

/-- Fields of `struct click_ip` read by the validators: header length
in 32-bit words (`ip_hl`), protocol (`ip_p`), total length (`ip_len`,
16-bit wire value), and the source/destination addresses used by the
pseudo-header checksum. -/
structure IPHeader where
  ip_hl : Nat
  ip_p : Nat
  ip_len : Nat
  ip_src : Nat
  ip_dst : Nat
deriving DecidableEq

/-- Field of `struct click_tcp` read by the validator: data offset in
32-bit words (`th_off`). -/
structure TCPHeader where
  th_off : Nat
deriving DecidableEq

/-- Fields of `struct click_udp` read by the validator: `uh_ulen`
(16-bit wire value) and the checksum field `uh_sum`. -/
structure UDPHeader where
  uh_ulen : Nat
  uh_sum : Nat
deriving DecidableEq

/-- View of a packet as consumed by `CheckTCPHeader::simple_action`.
The predicate `has_network_header()` is declared on `Packet` but its
body is not among the sources under study; modelled from the spec as
the boolean attribute `hasNet` ("explicit has-network-header
predicate": whether `set_network_header` has been called with a
non-null pointer).  `plen` is `p->length()`, `netOff` is
`p->network_header_offset()`, and `seg` lists the bytes starting at the
transport header, used only by the checksum step. -/
structure TcpPacket where
  hasNet : Bool
  ip : IPHeader
  tcp : TCPHeader
  plen : Nat
  netOff : Nat
  seg : List Nat
deriving DecidableEq

/-- View of a packet as consumed by `CheckUDPHeader::simple_action`;
fields as in `TcpPacket`. -/
structure UdpPacket where
  hasNet : Bool
  ip : IPHeader
  udp : UDPHeader
  plen : Nat
  netOff : Nat
  seg : List Nat
deriving DecidableEq

/-- Configuration of a checker element: the `VERBOSE` and `CHECKSUM`
options and the number of output ports of the element (`noutputs()`).
The `DETAILS` option is reflected in `CheckState.reasonDrops`. -/
structure CheckerConfig where
  verbose : Bool
  checksum : Bool
  noutputs : Nat
deriving DecidableEq

/-- Mutable counters of a checker element: `_count` (accepted),
`_drops` (total failures), and `_reason_drops`, which is `some` of the
three per-reason counters exactly when `DETAILS` was configured and
`none` when the array was never allocated. -/
structure CheckState where
  count : Nat
  drops : Nat
  reasonDrops : Option (Nat × Nat × Nat)
deriving DecidableEq

/-- Drop reasons, in declaration order: `NOT_TCP`/`NOT_UDP`,
`BAD_LENGTH`, `BAD_CHECKSUM`. -/
inductive Reason where
  | notProto
  | badLength
  | badChecksum
deriving DecidableEq

/-- What `drop` did with the packet: pushed it to the optional second
output port, or killed it. -/
inductive DropAction where
  | toSecondOutput
  | killed
deriving DecidableEq

/-- Result of a validator run on one packet: forwarded unchanged, or
diverted with a reason, whether a chatter message was logged, and what
happened to the packet. -/
inductive Outcome where
  | forward
  | diverted (r : Reason) (logged : Bool) (act : DropAction)
deriving DecidableEq

/-- Increment of the per-reason counter triple selected by `reason`,
as in `_reason_drops[reason]++`. -/
def bumpReason (r : Reason) : Nat × Nat × Nat → Nat × Nat × Nat
  | (a, b, c) =>
    match r with
    | .notProto => (a + 1, b, c)
    | .badLength => (a, b + 1, c)
    | .badChecksum => (a, b, c + 1)

namespace Check

/-- Embeds `CheckTCPHeader::drop` / `CheckUDPHeader::drop` (the two
bodies are identical): chatter iff `_drops == 0 || _verbose`, then
`_drops++`, then `_reason_drops[reason]++` if the array exists, then
push to output 1 if `noutputs() == 2` else `p->kill()`. -/
def drop (cfg : CheckerConfig) (st : CheckState) (r : Reason) :
    CheckState × Outcome :=
  let logged := decide (st.drops = 0) || cfg.verbose
  ({ st with drops := st.drops + 1,
             reasonDrops := st.reasonDrops.map (bumpReason r) },
   .diverted r logged
     (if cfg.noutputs = 2 then .toSecondOutput else .killed))

/-- Modelled from the spec: `click_in_cksum` is defined outside the
sources under study; the one's-complement internet checksum over the
first `len` bytes paired into 16-bit big-endian words. -/
def click_in_cksum (bytes : List Nat) (len : Nat) : Nat :=
  65535 - (words (bytes.take len)).sum % 65535
where
  /-- Pair consecutive bytes into 16-bit words, an odd final byte
  padded with zero. -/
  words : List Nat → List Nat
    | [] => []
    | [b] => [b * 256]
    | b1 :: b2 :: rest => (b1 * 256 + b2) :: words rest

/-- Modelled from the spec: `click_in_cksum_pseudohdr` is defined
outside the sources under study; folds the IP pseudo-header
(source/destination address split into 16-bit halves, protocol,
transport length) into a partial checksum `csum`. -/
def click_in_cksum_pseudohdr (csum : Nat) (iph : IPHeader) (len : Nat) : Nat :=
  65535 - ((65535 - csum) + iph.ip_src / 65536 + iph.ip_src % 65536 +
           iph.ip_dst / 65536 + iph.ip_dst % 65536 + iph.ip_p + len) % 65535

/-- Embeds line 108 of `checktcpheader.cc`: the local
`bool is_long = p->length() < len + iph_len + p->network_header_offset();`
(computed by `simple_action` and then never consulted). -/
def tcpIsLong (p : TcpPacket) : Bool :=
  decide (p.plen <
    (u32sub (ntohs p.ip.ip_len) (p.ip.ip_hl * 4) + p.ip.ip_hl * 4 + p.netOff)
      % 4294967296)

/-- Embeds line 106 of `checkudpheader.cc`: the local
`bool is_long = p->length() < len + iph_len + p->network_header_offset();`
(computed by `simple_action` and then never consulted). -/
def udpIsLong (p : UdpPacket) : Bool :=
  decide (p.plen <
    (ntohs p.udp.uh_ulen + p.ip.ip_hl * 4 + p.netOff) % 4294967296)

/-- Embeds `CheckTCPHeader::simple_action`.  Guard: no network header
or `ip_p != IP_PROTO_TCP` (6) drops `NOT_TCP`; then
`iph_len = ip_hl << 2`, `len = ntohs(ip_len) - iph_len` (unsigned),
`tcph_len = th_off << 2`; `tcph_len < sizeof(click_tcp)` (20) or
`len < tcph_len` drops `BAD_LENGTH`; then if `_checksum`, a nonzero
pseudo-header checksum drops `BAD_CHECKSUM`; otherwise `_count++` and
the packet is returned. -/
def validateTcp (cfg : CheckerConfig) (st : CheckState) (p : TcpPacket) :
    CheckState × Outcome :=
  if p.hasNet = false then
    drop cfg st .notProto
  else if p.ip.ip_p ≠ 6 then
    drop cfg st .notProto
  else
    let iph_len := p.ip.ip_hl * 4
    let len := u32sub (ntohs p.ip.ip_len) iph_len
    let tcph_len := p.tcp.th_off * 4
    if tcph_len < 20 ∨ len < tcph_len then
      drop cfg st .badLength
    else if cfg.checksum then
      if click_in_cksum_pseudohdr (click_in_cksum p.seg len) p.ip len ≠ 0 then
        drop cfg st .badChecksum
      else
        ({ st with count := st.count + 1 }, .forward)
    else
      ({ st with count := st.count + 1 }, .forward)

/-- Embeds `CheckUDPHeader::simple_action`.  Guard: no network header
or `ip_p != IP_PROTO_UDP` (17) drops `NOT_UDP`; then
`len = ntohs(uh_ulen)`; `len < sizeof(click_udp)` (8) drops
`BAD_LENGTH`; then only when the wire checksum field is nonzero and
`_checksum` is set, a nonzero pseudo-header checksum drops
`BAD_CHECKSUM`; otherwise `_count++` and the packet is returned. -/
def validateUdp (cfg : CheckerConfig) (st : CheckState) (p : UdpPacket) :
    CheckState × Outcome :=
  if p.hasNet = false then
    drop cfg st .notProto
  else if p.ip.ip_p ≠ 17 then
    drop cfg st .notProto
  else
    let len := ntohs p.udp.uh_ulen
    if len < 8 then
      drop cfg st .badLength
    else if p.udp.uh_sum ≠ 0 then
      if cfg.checksum then
        if click_in_cksum_pseudohdr (click_in_cksum p.seg len) p.ip len ≠ 0 then
          drop cfg st .badChecksum
        else
          ({ st with count := st.count + 1 }, .forward)
      else
        ({ st with count := st.count + 1 }, .forward)
    else
      ({ st with count := st.count + 1 }, .forward)

end Check

/-- Counter state of a freshly configured element: `_count = 0`,
`_drops = 0`, and `_reason_drops` allocated (zeroed) iff `DETAILS`. -/
def initState (details : Bool) : CheckState :=
  { count := 0, drops := 0,
    reasonDrops := if details then some (0, 0, 0) else none }

/-- Claim C5: for every packet satisfying the buffer-region invariant
`head ≤ data ≤ tail ≤ end`, the accessors satisfy
`headroom + length + tailroom = buffer_length`, and the invariant and
the equation are preserved by every in-place push/pull/put/take
operation. -/
theorem Packet.room_invariant (p : Packet) (hw : p.WF) :
    p.headroom + p.length + p.tailroom = p.buffer_length ∧
    (∀ n w q, p.push n = .fast w q →
      q.WF ∧ q.headroom + q.length + q.tailroom = q.buffer_length) ∧
    (∀ n w q, p.put n = .fast w q →
      q.WF ∧ q.headroom + q.length + q.tailroom = q.buffer_length) ∧
    (∀ n, (p.pull n).1.WF ∧
      (p.pull n).1.headroom + (p.pull n).1.length + (p.pull n).1.tailroom
        = (p.pull n).1.buffer_length) ∧
    (∀ n, (p.take n).1.WF ∧
      (p.take n).1.headroom + (p.take n).1.length + (p.take n).1.tailroom
        = (p.take n).1.buffer_length) := by
  obtain ⟨i, uc, dp, hd, da, tl, en, m⟩ := p
  obtain ⟨h1, h2, h3⟩ := hw
  simp only [Packet.WF, Packet.headroom, Packet.length, Packet.tailroom,
    Packet.buffer_length] at *
  refine ⟨by omega, ?_, ?_, ?_, ?_⟩
  · intro n w q h
    unfold Packet.push at h
    split at h
    next hc =>
      simp only [Packet.headroom, Packet.shared] at hc
      simp only [PushResult.fast.injEq] at h
      obtain ⟨-, hq⟩ := h
      subst hq
      simp only [Packet.WF, Packet.headroom, Packet.length, Packet.tailroom,
        Packet.buffer_length]
      omega
    next => exact absurd h (by simp)
  · intro n w q h
    unfold Packet.put at h
    split at h
    next hc =>
      simp only [Packet.tailroom, Packet.shared] at hc
      simp only [PushResult.fast.injEq] at h
      obtain ⟨-, hq⟩ := h
      subst hq
      simp only [Packet.WF, Packet.headroom, Packet.length, Packet.tailroom,
        Packet.buffer_length]
      omega
    next => exact absurd h (by simp)
  · intro n
    unfold Packet.pull
    split
    all_goals
      simp only [Packet.WF, Packet.headroom, Packet.length, Packet.tailroom,
        Packet.buffer_length] at *
      omega
  · intro n
    unfold Packet.take
    split
    all_goals
      simp only [Packet.WF, Packet.headroom, Packet.length, Packet.tailroom,
        Packet.buffer_length] at *
      omega

/-- Instantiation of `Packet.room_invariant` at the concrete
`samplePacket`. -/
theorem Packet.room_invariant_witness :
    samplePacket.headroom + samplePacket.length + samplePacket.tailroom
      = samplePacket.buffer_length :=
  (Packet.room_invariant samplePacket (by decide)).1

/-- Claim C2: when `headroom(p) ≥ n` and `p` is unshared, `push n`
takes the in-place path: it returns the same handle (same `id`, same
storage `head`, same bytes `mem`) as a writable handle with only the
`data` offset moved backward by exactly `n`; otherwise it takes the
expensive path. -/
theorem Packet.push_fastpath (p : Packet) (n : Nat) :
    (n ≤ p.headroom → p.shared = false →
      ∃ q, p.push n = .fast true q ∧ q.id = p.id ∧ q.head = p.head ∧
        q.tail = p.tail ∧ q.end_ = p.end_ ∧ q.mem = p.mem ∧
        q.data = p.data - n ∧ q.data + n = p.data) ∧
    (p.headroom < n ∨ p.shared = true → p.push n = .expensive n) := by
  constructor
  · intro h1 h2
    refine ⟨{ p with data := p.data - n }, ?_, rfl, rfl, rfl, rfl, rfl, rfl, ?_⟩
    · unfold Packet.push
      rw [if_pos ⟨h1, h2⟩]
    · show p.data - n + n = p.data
      simp only [Packet.headroom] at h1
      omega
  · intro h
    unfold Packet.push
    rw [if_neg]
    rintro ⟨hc1, hc2⟩
    rcases h with h | h
    · omega
    · rw [h] at hc2
      cases hc2

/-- Instantiation of `Packet.push_fastpath` at `samplePacket` with
`n = 4`. -/
theorem Packet.push_fastpath_witness :
    ∃ q, samplePacket.push 4 = .fast true q ∧ q.id = samplePacket.id ∧
      q.head = samplePacket.head ∧ q.tail = samplePacket.tail ∧
      q.end_ = samplePacket.end_ ∧ q.mem = samplePacket.mem ∧
      q.data = samplePacket.data - 4 ∧ q.data + 4 = samplePacket.data :=
  (Packet.push_fastpath samplePacket 4).1 (by decide) (by decide)

/-- Claim C3: `pull n` and `take n` never fail.  When `n > length(p)`
each emits a diagnostic and clamps, leaving `data = tail` (length 0)
respectively `tail = data`; when `n ≤ length(p)` each silently removes
exactly `n` bytes from the front (advancing `data`) respectively the
end (retreating `tail`). -/
theorem Packet.pull_take_clamp (p : Packet) (n : Nat) (hw : p.WF) :
    (p.length < n →
      (p.pull n).2 = true ∧ (p.pull n).1.data = p.tail ∧
      (p.pull n).1.length = 0 ∧
      (p.take n).2 = true ∧ (p.take n).1.tail = p.data ∧
      (p.take n).1.length = 0) ∧
    (n ≤ p.length →
      (p.pull n).2 = false ∧ (p.pull n).1.data = p.data + n ∧
      (p.pull n).1.length = p.length - n ∧
      (p.take n).2 = false ∧ (p.take n).1.tail = p.tail - n ∧
      (p.take n).1.length = p.length - n) := by
  obtain ⟨i, uc, dp, hd, da, tl, en, m⟩ := p
  simp only [Packet.WF] at hw
  obtain ⟨h1, h2, h3⟩ := hw
  constructor
  · intro h
    have h' : tl - da < n := by simpa [Packet.length] using h
    unfold Packet.pull Packet.take
    rw [if_pos h, if_pos h]
    refine ⟨rfl, ?_, ?_, rfl, ?_, ?_⟩ <;> simp only [Packet.length] <;> omega
  · intro h
    have h' : n ≤ tl - da := by simpa [Packet.length] using h
    unfold Packet.pull Packet.take
    rw [if_neg (by simp only [Packet.length]; omega),
        if_neg (by simp only [Packet.length]; omega)]
    refine ⟨rfl, ?_, ?_, rfl, ?_, ?_⟩ <;> simp only [Packet.length] <;> omega

/-- Instantiation of `Packet.pull_take_clamp` at `samplePacket` with
`n = 100 > length = 12`: the clamped results. -/
theorem Packet.pull_take_clamp_witness :
    (samplePacket.pull 100).2 = true ∧
    (samplePacket.pull 100).1.data = samplePacket.tail ∧
    (samplePacket.pull 100).1.length = 0 ∧
    (samplePacket.take 100).2 = true ∧
    (samplePacket.take 100).1.tail = samplePacket.data ∧
    (samplePacket.take 100).1.length = 0 :=
  (Packet.pull_take_clamp samplePacket 100 (by decide)).1 (by decide)

/-- Claim C4: on an unshared well-formed packet with `headroom ≥ n`,
`push n` then `pull n` restores the packet exactly (offsets and byte
content); symmetrically with `tailroom ≥ n`, `put n` then `take n`
restores it. -/
theorem Packet.push_pull_roundtrip (p : Packet) (n : Nat) (hw : p.WF)
    (hs : p.shared = false) :
    (n ≤ p.headroom → ∃ q, p.push n = .fast true q ∧
      (q.pull n).1 = p ∧ (q.pull n).2 = false ∧ (q.pull n).1.mem = p.mem) ∧
    (n ≤ p.tailroom → ∃ q, p.put n = .fast true q ∧
      (q.take n).1 = p ∧ (q.take n).2 = false ∧ (q.take n).1.mem = p.mem) := by
  obtain ⟨i, uc, dp, hd, da, tl, en, m⟩ := p
  simp only [Packet.WF] at hw
  obtain ⟨h1, h2, h3⟩ := hw
  constructor
  · intro hn
    simp only [Packet.headroom] at hn
    have hpull : Packet.pull ⟨i, uc, dp, hd, da - n, tl, en, m⟩ n
        = (⟨i, uc, dp, hd, da, tl, en, m⟩, false) := by
      unfold Packet.pull
      rw [if_neg (by simp only [Packet.length]; omega)]
      show (Packet.mk i uc dp hd (da - n + n) tl en m, false) = _
      have hda : da - n + n = da := by omega
      rw [hda]
    refine ⟨⟨i, uc, dp, hd, da - n, tl, en, m⟩, ?_, ?_, ?_, ?_⟩
    · unfold Packet.push
      rw [if_pos ⟨hn, hs⟩]
    · rw [hpull]
    · rw [hpull]
    · rw [hpull]
  · intro hn
    simp only [Packet.tailroom] at hn
    have htake : Packet.take ⟨i, uc, dp, hd, da, tl + n, en, m⟩ n
        = (⟨i, uc, dp, hd, da, tl, en, m⟩, false) := by
      unfold Packet.take
      rw [if_neg (by simp only [Packet.length]; omega)]
      show (Packet.mk i uc dp hd da (tl + n - n) en m, false) = _
      have htl : tl + n - n = tl := by omega
      rw [htl]
    refine ⟨⟨i, uc, dp, hd, da, tl + n, en, m⟩, ?_, ?_, ?_, ?_⟩
    · unfold Packet.put
      rw [if_pos ⟨hn, hs⟩]
    · rw [htake]
    · rw [htake]
    · rw [htake]

/-- Instantiation of `Packet.push_pull_roundtrip` at `samplePacket`
with `n = 4`: the head-side round trip. -/
theorem Packet.push_pull_roundtrip_witness :
    ∃ q, samplePacket.push 4 = .fast true q ∧
      (q.pull 4).1 = samplePacket ∧ (q.pull 4).2 = false ∧
      (q.pull 4).1.mem = samplePacket.mem :=
  (Packet.push_pull_roundtrip samplePacket 4 (by decide) (by decide)).1
    (by decide)

/-- Claim C6: `uniqueify()` on an unshared packet returns the very same
handle reinterpreted as writable — no allocation, no copy, identical
storage — and only a shared packet takes the expensive copy path. -/
theorem Packet.uniqueify_unshared (p : Packet) :
    (p.shared = false → p.uniqueify = .fast p) ∧
    (p.shared = true → p.uniqueify = .expensive) := by
  constructor
  · intro h
    unfold Packet.uniqueify
    rw [if_pos h]
  · intro h
    unfold Packet.uniqueify
    rw [if_neg (by simp [h])]

/-- Instantiation of `Packet.uniqueify_unshared`: the unshared
`samplePacket` comes straight back, the shared `sharedPacket` goes to
the copy path. -/
theorem Packet.uniqueify_unshared_witness :
    samplePacket.uniqueify = .fast samplePacket ∧
    sharedPacket.uniqueify = .expensive :=
  ⟨(Packet.uniqueify_unshared samplePacket).1 (by decide),
   (Packet.uniqueify_unshared sharedPacket).2 (by decide)⟩

/-- Claim C10: `nonunique_push n` / `nonunique_put n` take the in-place
path whenever the room suffices, never consulting `shared()`: the same
handle comes back as a plain (non-writable) `Packet` with the offset
grown — even on a shared packet, where `push`/`put` with the same room
would take the expensive copy-on-write path instead. -/
theorem Packet.nonunique_grow (p : Packet) (n : Nat) :
    (n ≤ p.headroom →
      p.nonunique_push n = .fast false { p with data := p.data - n }) ∧
    (n ≤ p.tailroom →
      p.nonunique_put n = .fast false { p with tail := p.tail + n }) ∧
    (p.shared = true → n ≤ p.headroom → p.push n = .expensive n) ∧
    (p.shared = true → n ≤ p.tailroom → p.put n = .expensive n) := by
  refine ⟨?_, ?_, ?_, ?_⟩
  · intro h
    unfold Packet.nonunique_push
    rw [if_pos h]
  · intro h
    unfold Packet.nonunique_put
    rw [if_pos h]
  · intro hs h
    unfold Packet.push
    rw [if_neg]
    rintro ⟨-, hc⟩
    rw [hs] at hc
    cases hc
  · intro hs h
    unfold Packet.put
    rw [if_neg]
    rintro ⟨-, hc⟩
    rw [hs] at hc
    cases hc

/-- Instantiation of `Packet.nonunique_grow` at the shared
`sharedPacket` with `n = 4`: the nonunique fast path fires even though
`shared()` is true, while `push` diverts to the expensive path. -/
theorem Packet.nonunique_grow_witness :
    sharedPacket.nonunique_push 4
      = .fast false { sharedPacket with data := sharedPacket.data - 4 } ∧
    sharedPacket.push 4 = .expensive 4 :=
  ⟨(Packet.nonunique_grow sharedPacket 4).1 (by decide),
   (Packet.nonunique_grow sharedPacket 4).2.2.1 (by decide) (by decide)⟩

/-- A checker configuration with defaults plus a second output port:
`VERBOSE` false, `CHECKSUM` true, two outputs. -/
def sampleCfg : CheckerConfig := { verbose := false, checksum := true, noutputs := 2 }

/-- A checker configuration with `CHECKSUM` disabled and a second
output port. -/
def noCsumCfg : CheckerConfig := { verbose := false, checksum := false, noutputs := 2 }

/-- A packet handed to a checker before any network header was set;
the header fields hold arbitrary junk the checker must never read. -/
def noHeaderTcp : TcpPacket :=
  { hasNet := false,
    ip := { ip_hl := 9, ip_p := 6, ip_len := 77, ip_src := 1, ip_dst := 2 },
    tcp := { th_off := 3 }, plen := 5, netOff := 4, seg := [1, 2] }

/-- A well-formed UDP packet whose wire checksum field is zero. -/
def zeroCsumUdp : UdpPacket :=
  { hasNet := true,
    ip := { ip_hl := 5, ip_p := 17, ip_len := 48, ip_src := 11, ip_dst := 22 },
    udp := { uh_ulen := 28, uh_sum := 0 }, plen := 48, netOff := 0, seg := [] }

/-- A TCP packet whose IP total length claims 980 payload bytes while
only 60 bytes were captured (`p->length()`): the case the dead local
`is_long` detects. -/
def overclaimTcp : TcpPacket :=
  { hasNet := true,
    ip := { ip_hl := 5, ip_p := 6, ip_len := 1000, ip_src := 0, ip_dst := 0 },
    tcp := { th_off := 5 }, plen := 60, netOff := 0, seg := [] }

/-- A UDP packet whose length field claims 100 bytes while only 60
bytes were captured, checksum field zero. -/
def overclaimUdp : UdpPacket :=
  { hasNet := true,
    ip := { ip_hl := 5, ip_p := 17, ip_len := 120, ip_src := 0, ip_dst := 0 },
    udp := { uh_ulen := 100, uh_sum := 0 }, plen := 60, netOff := 0, seg := [] }

/-- Claim C9: on every validation failure `drop` increments the
total-drop counter by exactly one, leaves the accepted count unchanged,
bumps the per-reason counter for exactly the given reason precisely
when the `DETAILS` array exists, logs exactly when the previous drop
count was zero or `VERBOSE` is set, and pushes the packet to the second
output port when the element has two outputs, killing it otherwise. -/
theorem Check.drop_bookkeeping (cfg : CheckerConfig) (st : CheckState) (r : Reason) :
    (Check.drop cfg st r).1.drops = st.drops + 1 ∧
    (Check.drop cfg st r).1.count = st.count ∧
    (Check.drop cfg st r).1.reasonDrops = st.reasonDrops.map (bumpReason r) ∧
    (Check.drop cfg st r).2
      = .diverted r (decide (st.drops = 0) || cfg.verbose)
          (if cfg.noutputs = 2 then .toSecondOutput else .killed) ∧
    (∀ a b c, bumpReason .notProto (a, b, c) = (a + 1, b, c)) ∧
    (∀ a b c, bumpReason .badLength (a, b, c) = (a, b + 1, c)) ∧
    (∀ a b c, bumpReason .badChecksum (a, b, c) = (a, b, c + 1)) := by
  refine ⟨rfl, rfl, rfl, rfl, ?_, ?_, ?_⟩ <;> (intro a b c; rfl)

/-- Claim C8: a packet with no network header, or whose IP protocol
field is not the expected transport protocol, is diverted with the
`NOT_TCP`/`NOT_UDP` reason; in the absent-header case the result is
independent of every header field, i.e. the protocol-field read is
short-circuited behind the header-presence check. -/
theorem Check.protocol_guard (cfg : CheckerConfig) (st : CheckState) :
    (∀ p q : TcpPacket, p.hasNet = false → q.hasNet = false →
      Check.validateTcp cfg st p = Check.validateTcp cfg st q) ∧
    (∀ p : TcpPacket, p.hasNet = false ∨ p.ip.ip_p ≠ 6 →
      Check.validateTcp cfg st p = Check.drop cfg st .notProto) ∧
    (∀ p q : UdpPacket, p.hasNet = false → q.hasNet = false →
      Check.validateUdp cfg st p = Check.validateUdp cfg st q) ∧
    (∀ p : UdpPacket, p.hasNet = false ∨ p.ip.ip_p ≠ 17 →
      Check.validateUdp cfg st p = Check.drop cfg st .notProto) := by
  have tcpGuard : ∀ p : TcpPacket, p.hasNet = false ∨ p.ip.ip_p ≠ 6 →
      Check.validateTcp cfg st p = Check.drop cfg st .notProto := by
    intro p h
    unfold Check.validateTcp
    by_cases hn : p.hasNet = false
    · rw [if_pos hn]
    · rw [if_neg hn]
      rcases h with h | h
      · exact absurd h hn
      · rw [if_pos h]
  have udpGuard : ∀ p : UdpPacket, p.hasNet = false ∨ p.ip.ip_p ≠ 17 →
      Check.validateUdp cfg st p = Check.drop cfg st .notProto := by
    intro p h
    unfold Check.validateUdp
    by_cases hn : p.hasNet = false
    · rw [if_pos hn]
    · rw [if_neg hn]
      rcases h with h | h
      · exact absurd h hn
      · rw [if_pos h]
  refine ⟨?_, tcpGuard, ?_, udpGuard⟩
  · intro p q hp hq
    rw [tcpGuard p (Or.inl hp), tcpGuard q (Or.inl hq)]
  · intro p q hp hq
    rw [udpGuard p (Or.inl hp), udpGuard q (Or.inl hq)]

/-- Instantiation of `Check.protocol_guard`: the header-less
`noHeaderTcp` is diverted with reason `NOT_TCP`. -/
theorem Check.protocol_guard_witness :
    Check.validateTcp sampleCfg (initState true) noHeaderTcp
      = Check.drop sampleCfg (initState true) .notProto :=
  (Check.protocol_guard sampleCfg (initState true)).2.1 noHeaderTcp
    (by decide)

/-- Claim C7: a UDP packet whose wire checksum field is zero skips
checksum verification entirely — for every value of the `CHECKSUM`
option — and is accepted (count incremented, packet forwarded) as long
as the protocol and length checks pass. -/
theorem Check.udp_zero_checksum_accept (cfg : CheckerConfig) (st : CheckState)
    (p : UdpPacket) (hn : p.hasNet = true) (hp : p.ip.ip_p = 17)
    (hl : 8 ≤ ntohs p.udp.uh_ulen) (hs : p.udp.uh_sum = 0) :
    Check.validateUdp cfg st p = ({ st with count := st.count + 1 }, .forward) := by
  have hl' : ¬ (ntohs p.udp.uh_ulen < 8) := by omega
  simp [Check.validateUdp, hn, hp, hs, hl']

/-- Instantiation of `Check.udp_zero_checksum_accept` at `zeroCsumUdp`
with checksum verification configured on. -/
theorem Check.udp_zero_checksum_accept_witness :
    Check.validateUdp sampleCfg (initState false) zeroCsumUdp
      = ({ initState false with count := (initState false).count + 1 },
         .forward) :=
  Check.udp_zero_checksum_accept sampleCfg (initState false) zeroCsumUdp
    (by decide) (by decide) (by decide) (by decide)

/-- Claim C1 divergence: a TCP and a UDP packet whose claimed payload
length exceeds the physical captured length — the source computes
exactly this comparison into the local `is_long` (true here for both)
but never consults it — are accepted and forwarded by `simple_action`
with the count incremented, instead of being diverted with
`BAD_LENGTH`. -/
theorem Check.captured_length_not_enforced :
    Check.tcpIsLong overclaimTcp = true ∧
    Check.validateTcp noCsumCfg (initState false) overclaimTcp
      = ({ count := 1, drops := 0, reasonDrops := none }, .forward) ∧
    Check.udpIsLong overclaimUdp = true ∧
    Check.validateUdp sampleCfg (initState false) overclaimUdp
      = ({ count := 1, drops := 0, reasonDrops := none }, .forward) := by
  decide
